import Mathlib

/-!
Verification of the MJPEG video-player component
(components/video_player: video_player.cpp, video_player.h,
esp_jpg_decode.c).

The definitions below are a shallow embedding of the frame
demultiplexing and playback logic.  Byte buffers are `List Nat` with every
entry below 256; 32-bit machine words are `Nat` reduced modulo 2^32 where
the C code can overflow.  The external collaborators (SPIFFS, the HTTP
client, the FreeRTOS scheduler, the heap) are abstracted: allocations are
modelled by an explicit success flag where the code branches on them, and
the HTTP transport by the byte buffer it has filled.
-/

set_option maxHeartbeats 1000000

namespace VideoPlayer

/-- Byte access into a buffer, mirroring C pointer indexing.  All proved
paths below only read in bounds; 0 is the junk value for out-of-range
reads. -/
def byteAt (buf : List Nat) (i : Nat) : Nat := buf.getD i 0

/-- Little-endian 32-bit load at offset `i`, as performed by the `memcpy`
of header structs on the little-endian target. -/
def le32at (buf : List Nat) (i : Nat) : Nat :=
  byteAt buf i + 256 * byteAt buf (i + 1) + 65536 * byteAt buf (i + 2) +
    16777216 * byteAt buf (i + 3)

/-- Model of `__builtin_bswap32` on a 32-bit value. -/
def bswap32 (v : Nat) : Nat :=
  (v % 256) * 16777216 + (v / 256 % 256) * 65536 + (v / 65536 % 256) * 256 +
    v / 16777216 % 256

/-- Little-endian encoding of a 32-bit value (the wire format of the
u32 fields of the container). -/
def enc32 (v : Nat) : List Nat :=
  [v % 256, v / 256 % 256, v / 65536 % 256, v / 16777216 % 256]

/-- The "MJPG" signature constant (`MJPEG_SIGNATURE`). -/
def mjpegSignature : Nat := 0x47504A4D

/-- `__builtin_bswap32(MJPEG_SIGNATURE)`. -/
def mjpegSignatureSwapped : Nat := 0x4D4A5047

/-- The third signature constant accepted by `parse_mjpeg_header`
(0xFEFFD8FF). -/
def jpegSoiSignature : Nat := 0xFEFFD8FF

/-- Parsed stream header (`mjpeg_header_t` minus the signature, as stored
into `video_width_`, `video_height_`, `frame_count_`, `video_fps_`). -/
structure StreamHeader where
  width : Nat
  height : Nat
  frameCount : Nat
  fps : Nat
deriving Repr, DecidableEq

/-- Per-field repair used on the unrecognized-signature path of
`parse_mjpeg_header`: keep the direct value when in range, otherwise try
the byte-swapped value, otherwise fall back to the default. -/
def adjustRange (v limit dflt : Nat) : Nat :=
  if limit < v ∨ v = 0 then
    if limit < bswap32 v ∨ bswap32 v = 0 then dflt else bswap32 v
  else v

/-- SOF-marker test from the raw-JPEG branch of `parse_mjpeg_header`
(0xC0–0xCF excluding 0xC4 and 0xC8). -/
def isSofMarker (m : Nat) : Prop :=
  0xC0 ≤ m ∧ m ≤ 0xCF ∧ m ≠ 0xC4 ∧ m ≠ 0xC8

instance (m : Nat) : Decidable (isSofMarker m) := by
  unfold isSofMarker; infer_instance

/-- The SOF-scanning loop of the raw-JPEG branch of `parse_mjpeg_header`.
Returns `(width, height)` when a SOF segment with plausible dimensions is
found; `none` on the break and fall-through paths of the loop (the caller
then substitutes 320x240).  The loop advances by at least 2 per
iteration, so `buf.length` steps of fuel are enough. -/
def sofScan (buf : List Nat) : Nat → Nat → Option (Nat × Nat)
  | 0, _ => none
  | fuel + 1, pos =>
    if pos + 8 < buf.length then
      if byteAt buf pos = 0xFF ∧ isSofMarker (byteAt buf (pos + 1)) then
        let h := byteAt buf (pos + 5) * 256 + byteAt buf (pos + 6)
        let w := byteAt buf (pos + 7) * 256 + byteAt buf (pos + 8)
        if 0 < w ∧ w ≤ 4096 ∧ 0 < h ∧ h ≤ 4096 then some (w, h) else none
      else
        if byteAt buf (pos + 1) = 0xD8 ∨ byteAt buf (pos + 1) = 0xD9 then
          sofScan buf fuel (pos + 2)
        else
          sofScan buf fuel (pos + 2 + (byteAt buf (pos + 2) * 256 + byteAt buf (pos + 3)))
    else none

/-- Model of `VideoPlayerComponent::parse_mjpeg_header`.  `none` models a
`false` return (parse failure); `some` carries the fields the method
stores on success. -/
def parse_mjpeg_header (buf : List Nat) : Option StreamHeader :=
  if buf.length < 20 then none
  else if byteAt buf 0 = 0xFF ∧ byteAt buf 1 = 0xD8 then
    match sofScan buf buf.length 2 with
    | some (w, h) => some ⟨w, h, 1, 30⟩
    | none => some ⟨320, 240, 1, 30⟩
  else
    let sig := le32at buf 0
    if sig ≠ mjpegSignature ∧ sig ≠ mjpegSignatureSwapped ∧ sig ≠ jpegSoiSignature then
      some ⟨adjustRange (le32at buf 4) 4096 320,
            adjustRange (le32at buf 8) 4096 240,
            adjustRange (le32at buf 12) 10000 100,
            adjustRange (le32at buf 16) 120 30⟩
    else
      let w1 := if sig = mjpegSignatureSwapped then bswap32 (le32at buf 4) else le32at buf 4
      let h1 := if sig = mjpegSignatureSwapped then bswap32 (le32at buf 8) else le32at buf 8
      let fc1 := if sig = mjpegSignatureSwapped then bswap32 (le32at buf 12) else le32at buf 12
      let fps1 := if sig = mjpegSignatureSwapped then bswap32 (le32at buf 16) else le32at buf 16
      let dims := if w1 = 0 ∨ 4096 < w1 ∨ h1 = 0 ∨ 4096 < h1 then (320, 240) else (w1, h1)
      let fc2 := if fc1 = 0 ∨ 10000 < fc1 then 100 else fc1
      let fps2 := if fps1 = 0 ∨ 120 < fps1 then 30 else fps1
      some ⟨dims.1, dims.2, fc2, fps2⟩

/-! ## Frame extraction (`read_next_frame`) -/

/-- Result of one `read_next_frame` attempt.  `located` carries the JPEG
payload slice that the code hands to `process_frame`; the other
constructors are the early `return false` paths (`allocFail` is the
FILE-path failure to allocate the per-frame JPEG buffer). -/
inductive FrameOutcome where
  | noData
  | corruptSize
  | insufficientPayload
  | allocFail
  | located (payload : List Nat)
deriving Repr, DecidableEq

/-- Contiguous slice `[off, off+len)` of a buffer (a borrowed pointer into
the HTTP buffer, or the bytes `fread` copies out of the file). -/
def extract (buf : List Nat) (off len : Nat) : List Nat :=
  (buf.drop off).take len

/-- State of the HTTP source: the filled buffer (`http_buffer_`), the read
cursor (`http_buffer_pos_`), the filled length (`http_buffer_size_used_`)
and the loop flag (`loop_video_`, whose declaration is not in the sources;
the spec documents it as a configuration flag defaulting to true). -/
structure HttpState where
  buf : List Nat
  pos : Nat
  used : Nat
  loopVideo : Bool
deriving Repr, DecidableEq

/-- State of the FILE source: the file contents and the `FILE*` position. -/
structure FileState where
  data : List Nat
  pos : Nat
deriving Repr, DecidableEq

/-- The header-read-and-validate tail of the HTTP branch of
`read_next_frame`, entered once the sufficient-data check has passed:
read the 8-byte `mjpeg_frame_header_t` at the cursor, advance the cursor
past it, reject sizes that are zero or above 1 MiB, reject payloads
running past the filled length, otherwise return the payload slice and
advance the cursor past it. -/
def readFrameAt (s : HttpState) : FrameOutcome × HttpState :=
  let size := le32at s.buf s.pos
  let p1 := s.pos + 8
  if 1048576 < size ∨ size = 0 then (.corruptSize, { s with pos := p1 })
  else if s.used < p1 + size then (.insufficientPayload, { s with pos := p1 })
  else (.located (extract s.buf p1 size), { s with pos := p1 + size })

/-- Model of the HTTP branch of `VideoPlayerComponent::read_next_frame`
(the buffer is modelled as allocated).  When fewer than 8 bytes remain
past the cursor, the cursor is reset to the payload start (offset 20)
when `loop_video_` is set and the read is retried once, exactly as in the
code. -/
def readNextFrameHttp (s : HttpState) : FrameOutcome × HttpState :=
  if s.used ≤ s.pos + 8 then
    if s.loopVideo then
      if s.used ≤ 28 then (.noData, { s with pos := 20 })
      else readFrameAt { s with pos := 20 }
    else (.noData, s)
  else readFrameAt s

/-- Model of the FILE branch of `VideoPlayerComponent::read_next_frame`.
A short header read is end-of-file: the code seeks back to offset 20 and
fails the call.  The size check on this branch only rejects sizes above
1 MiB (there is no zero check).  The per-frame JPEG buffer allocation
follows: on the ESP-IDF target `heap_caps_malloc(0)` returns NULL from
both pools, so a zero declared size always fails allocation; for
positive sizes the heap outcome is the environment flag `allocOk`.  A
short payload read fails the call with the file position at
end-of-file. -/
def readNextFrameFile (allocOk : Bool) (s : FileState) : FrameOutcome × FileState :=
  if s.data.length < s.pos + 8 then (.noData, { s with pos := 20 })
  else
    let size := le32at s.data s.pos
    let p1 := s.pos + 8
    if 1048576 < size then (.corruptSize, { s with pos := p1 })
    else if size = 0 ∨ allocOk = false then (.allocFail, { s with pos := p1 })
    else if s.data.length < p1 + size then (.insufficientPayload, { s with pos := s.data.length })
    else (.located (extract s.data p1 size), { s with pos := p1 + size })

/-! ## Decode and blit (`process_frame`, `jpg2rgb565`) -/

/-- The scale argument passed to the decoder (`jpg_scale_t`; the component
only ever uses NONE and 2X). -/
inductive JpgScale where
  | noScale
  | scale2x
deriving Repr, DecidableEq

/-- Model of `jpg2rgb565` from esp_jpg_decode.c: the placeholder body
ignores its arguments and returns false. -/
def jpg2rgb565 (src : List Nat) (scale : JpgScale) : Bool := false

/-- Scale selection in `process_frame`: 2x downscale when either video
dimension exceeds twice the display dimension. -/
def selectScale (vw vh dw dh : Nat) : JpgScale :=
  if dw * 2 < vw ∨ dh * 2 < vh then .scale2x else .noScale

/-- Return value of `VideoPlayerComponent::process_frame`:
false when the RGB buffer allocation fails (both pools), otherwise the
result of the decoder (which is the value returned). -/
def process_frame (allocOk : Bool) (vw vh dw dh : Nat) (jpegData : List Nat) : Bool :=
  if allocOk then jpg2rgb565 jpegData (selectScale vw vh dw dh) else false

/-- Whether the drawing loop of `process_frame` writes display pixel
`(x, y)`, given video dimensions `(vw, vh)` and display dimensions
`(dw, dh)`: the loop iterates over display pixels and skips a pixel when
its source row is past the scaled height, its source column is past the
scaled width, or the RGB565 index falls outside the (1 MiB-capped,
possibly truncated) RGB buffer.  The code computes the source
coordinates through single-precision floats; this model uses exact
arithmetic, which coincides with the float computation on the
power-of-two ratios evaluated below. -/
def pixelWritten (vw vh dw dh x y : Nat) : Bool :=
  let rgbBufSize := min (vw * vh * 2) 131072
  let sw := if selectScale vw vh dw dh = .scale2x then vw / 2 else vw
  let sh := if selectScale vw vh dw dh = .scale2x then vh / 2 else vh
  let sy := y * sh / dh
  if sh ≤ sy then false
  else
    let sx := x * sw / dw
    if sw ≤ sx then false
    else
      let idx := (sy * sw + sx) * 2
      if rgbBufSize ≤ idx + 1 then false else true

/-- Trace of pixels written by one row `y` of the drawing loop, for
`x = 0, 1, ..., n-1` in loop order. -/
def rowWrites (vw vh dw dh y : Nat) : Nat → List (Nat × Nat)
  | 0 => []
  | x + 1 =>
    rowWrites vw vh dw dh y x ++ (if pixelWritten vw vh dw dh x y then [(x, y)] else [])

/-- Trace of pixels written by the first `m` rows of the drawing loop. -/
def blitRows (vw vh dw dh : Nat) : Nat → List (Nat × Nat)
  | 0 => []
  | y + 1 => blitRows vw vh dw dh y ++ rowWrites vw vh dw dh y dw

/-- Full trace of `draw_pixel_at` calls made by the drawing loop of
`process_frame` for one decoded frame. -/
def blitWrites (vw vh dw dh : Nat) : List (Nat × Nat) :=
  blitRows vw vh dw dh dh

/-- Occurrence count of a pixel coordinate in a write trace. -/
def countPair : List (Nat × Nat) → Nat × Nat → Nat
  | [], _ => 0
  | p :: rest, q => (if p = q then 1 else 0) + countPair rest q

/-! ## Playback loop (`VideoPlayerComponent::loop`) -/

/-- The configured source kind. -/
inductive VSource where
  | file
  | http
deriving Repr, DecidableEq

/-- Component state touched by `loop`: the source kind, both source
states, the HTTP initialization flag and retry timestamp, the frame-gate
timestamps, the frame counter, the failed flag (`mark_failed`), and the
video/display dimensions used by `process_frame`. -/
structure CompState where
  source : VSource
  file : FileState
  http : HttpState
  httpInitialized : Bool
  lastHttpInitAttempt : Nat
  lastUpdate : Nat
  updateInterval : Nat
  currentFrame : Nat
  failed : Bool
  videoW : Nat
  videoH : Nat
  displayW : Nat
  displayH : Nat
deriving Repr, DecidableEq

/-- Unsigned 32-bit subtraction `a - b`, as computed on the `uint32_t`
millisecond clocks. -/
def sub32 (a b : Nat) : Nat := (a + 4294967296 - b) % 4294967296

/-- Dispatch of `read_next_frame` on the configured source.  `allocOk`
is the heap environment seen by the per-frame allocation of the FILE
branch (the HTTP branch allocates nothing per frame). -/
def read_next_frame (allocOk : Bool) (s : CompState) : FrameOutcome × CompState :=
  match s.source with
  | .file =>
    let r := readNextFrameFile allocOk s.file
    (r.1, { s with file := r.2 })
  | .http =>
    let r := readNextFrameHttp s.http
    (r.1, { s with http := r.2 })

/-- The boolean the dispatched `read_next_frame` returns: the located
payload is handed to `process_frame`, whose result is returned; every
other outcome returns false. -/
def frameDelivered (allocOk : Bool) (s : CompState) : FrameOutcome → Bool
  | .located p => process_frame allocOk s.videoW s.videoH s.displayW s.displayH p
  | _ => false

/-- The frame-gate half of `loop`: return unchanged while the update
interval has not elapsed; otherwise stamp `last_update_`, run
`read_next_frame`, and increment `current_frame_` only when it returned
true. -/
def framePhase (allocOk : Bool) (now : Nat) (s : CompState) : CompState :=
  if sub32 now s.lastUpdate < s.updateInterval then s
  else
    let s1 := { s with lastUpdate := now }
    let r := read_next_frame allocOk s1
    if frameDelivered allocOk r.2 r.1 then
      { r.2 with currentFrame := r.2.currentFrame + 1 }
    else r.2

/-- One tick of `VideoPlayerComponent::loop`.  `openRes` abstracts
`open_http_source`: `none` is any retryable failure (interface not
ready, non-200 status, allocation failure, timeout), `some h` a success
installing the freshly filled buffer `h` (header-derived fields are left
abstract).  On the HTTP source, while uninitialized, an open is
attempted only when strictly more than 5000 ms have elapsed since the
previous attempt; a failed attempt records the attempt time and returns;
a successful attempt falls through to the frame gate. -/
def loopTick (allocOk : Bool) (openRes : Option HttpState) (now : Nat) (s : CompState) : CompState :=
  if s.source = .http ∧ s.httpInitialized = false then
    if 5000 < sub32 now s.lastHttpInitAttempt then
      match openRes with
      | some h =>
        framePhase allocOk now
          { s with lastHttpInitAttempt := now, httpInitialized := true, http := h }
      | none => { s with lastHttpInitAttempt := now }
    else s
  else framePhase allocOk now s

/-- A run of ticks in which every HTTP open attempt fails. -/
def runFailTicks (allocOk : Bool) (times : List Nat) (s : CompState) : CompState :=
  times.foldl (fun st t => loopTick allocOk none t st) s

/-! ## Marker-scanning chunk processing (`process_mjpeg_chunk`,
from the revision in video_player.h) -/

/-- Index of the first start-of-image marker (0xFF 0xD8) among adjacent
byte pairs of a chunk, mirroring the scan
`for (i = 0; i < len - 1; i++)`.  (For an empty chunk the C bound
`len - 1` underflows and the behaviour is undefined; the model scans
nothing.) -/
def findSOI : List Nat → Option Nat
  | a :: b :: rest =>
    if a = 0xFF ∧ b = 0xD8 then some 0
    else (findSOI (b :: rest)).map (· + 1)
  | _ => none

/-- Whether an end-of-image marker (0xFF 0xD9) occurs among adjacent byte
pairs of a buffer. -/
def containsEOI : List Nat → Bool
  | a :: b :: rest => (a = 0xFF ∧ b = 0xD9 : Bool) || containsEOI (b :: rest)
  | _ => false

/-- Model of `VideoPlayerComponent::process_mjpeg_chunk`.  The first
component is the frame passed to `decode_jpeg` during this call (if
any), the second the accumulation buffer (`jpg_buf`/`jpg_size` statics)
after the call, the third the boolean return value.  Allocation is
modelled as succeeding.  When a chunk contains a start-of-image marker,
the previously buffered frame (if non-empty) is emitted and the buffer
restarts from the marker; otherwise the chunk is appended to the buffer
(and dropped when no frame has started yet). -/
def process_mjpeg_chunk (st : Option (List Nat)) (data : List Nat) :
    Option (List Nat) × Option (List Nat) × Bool :=
  match findSOI data with
  | some i =>
    let emitted := match st with
      | some b => if b.length ≠ 0 then some b else none
      | none => none
    (emitted, some (data.drop i), true)
  | none =>
    match st with
    | some b => (none, some (b ++ data), true)
    | none => (none, none, true)

/-- Iterate `process_mjpeg_chunk` over a list of arriving chunks,
collecting every frame emitted to the decoder in order. -/
def runChunks : Option (List Nat) → List (List Nat) → List (List Nat) × Option (List Nat)
  | st, [] => ([], st)
  | st, c :: cs =>
    let r := process_mjpeg_chunk st c
    let rest := runChunks r.2.1 cs
    ((match r.1 with | some f => [f] | none => []) ++ rest.1, rest.2)

/-! ## Encoded container streams (for the length-prefixed locator) -/

/-- Wire encoding of one length-prefixed frame: the 8-byte
`{size, timestamp}` header followed by the payload. -/
def encodeFrame (f : List Nat × Nat) : List Nat :=
  enc32 f.1.length ++ enc32 f.2 ++ f.1

/-- Wire encoding of a sequence of frames laid back-to-back. -/
def encodeFrames : List (List Nat × Nat) → List Nat
  | [] => []
  | f :: rest => encodeFrame f ++ encodeFrames rest

/-- Outcomes of `k` successive HTTP `read_next_frame` calls, with the
final state. -/
def runLocates (s : HttpState) : Nat → List FrameOutcome × HttpState
  | 0 => ([], s)
  | k + 1 =>
    let r := readNextFrameHttp s
    let rest := runLocates r.2 k
    (r.1 :: rest.1, rest.2)

/-- Invariant of the marker-scan accumulation buffer: when a frame is
being buffered it starts with the start-of-image marker. -/
def goodBuf : Option (List Nat) → Prop
  | none => True
  | some b => b.take 2 = [0xFF, 0xD8]

/-! ## Concrete inputs used by witnesses and counterexamples -/

/-- A 20-byte container header with the primary "MJPG" signature whose
width field 0x40000000 is out of range directly but in range (64) after
a byte swap. -/
def swappableWidthHeader : List Nat :=
  [0x4D, 0x4A, 0x50, 0x47] ++ enc32 0x40000000 ++ enc32 240 ++ enc32 100 ++ enc32 30

/-- A fully in-range 20-byte container header with the primary "MJPG"
signature. -/
def validMjpgHeader : List Nat :=
  [0x4D, 0x4A, 0x50, 0x47] ++ enc32 320 ++ enc32 240 ++ enc32 100 ++ enc32 30

/-- An HTTP buffer whose frame header at the cursor declares a 2000000
byte payload (above the 1 MiB cap). -/
def oversizedHttpState : HttpState :=
  ⟨List.replicate 20 0 ++ enc32 2000000 ++ enc32 0 ++ List.replicate 4 0, 20, 32, false⟩

/-- A file whose frame header at position 20 declares a 2000000 byte
payload (above the 1 MiB cap). -/
def oversizedFileState : FileState :=
  ⟨List.replicate 20 0 ++ enc32 2000000 ++ enc32 0, 20⟩

/-- A file whose frame header at position 20 declares a zero-size
payload. -/
def zeroSizeFileState : FileState :=
  ⟨List.replicate 20 0 ++ enc32 0 ++ enc32 0, 20⟩

/-- An HTTP buffer holding one well-formed frame with payload [171],
with looping enabled. -/
def oneFrameLoopState : HttpState :=
  ⟨List.replicate 20 0 ++ encodeFrames [([171], 0)], 20,
   (List.replicate 20 0 ++ encodeFrames [([171], 0)]).length, true⟩

/-- An HTTP buffer with 30 used bytes whose frame header at offset 20
declares an absurd size, with the cursor already at 28 so that the
end-of-buffer reset path runs first. -/
def wrapCorruptHttpState : HttpState :=
  ⟨List.replicate 20 0 ++ enc32 4294967295 ++ enc32 0 ++ [0, 0], 28, 30, true⟩

/-- An HTTP buffer with 30 used bytes whose frame header at the cursor
declares size zero. -/
def zeroSizeHttpState : HttpState :=
  ⟨List.replicate 20 0 ++ enc32 0 ++ enc32 0 ++ [5, 5], 20, 30, false⟩

/-- An uninitialized HTTP-source component state. -/
def idleHttpComp : CompState :=
  ⟨VSource.http, ⟨[], 0⟩, ⟨[], 0, 0, true⟩, false, 0, 0, 0, 0, false, 0, 0, 0, 0⟩

/-- An initialized HTTP-source component whose buffer holds one
well-formed frame with payload [7] at the cursor. -/
def playingHttpComp : CompState :=
  ⟨VSource.http, ⟨[], 0⟩, ⟨List.replicate 20 0 ++ enc32 1 ++ enc32 0 ++ [7], 20, 29, true⟩,
   true, 0, 0, 0, 0, false, 256, 256, 64, 64⟩

/-! ## General lemmas about the byte-level primitives -/

theorem byteAt_append (pre l : List Nat) (i : Nat) :
    byteAt (pre ++ l) (pre.length + i) = byteAt l i := by
  induction pre with
  | nil => simp [byteAt]
  | cons a pre ih =>
    have h : (a :: pre).length + i = (pre.length + i) + 1 := by simp; omega
    rw [h]
    simpa [byteAt, List.getD_cons_succ] using ih

theorem byteAt_lt (buf : List Nat) (hb : ∀ b ∈ buf, b < 256) (i : Nat)
    (hi : i < buf.length) : byteAt buf i < 256 := by
  have h : buf.getD i 0 = buf[i] := List.getD_eq_getElem buf 0 hi
  rw [byteAt, h]
  exact hb _ (List.getElem_mem hi)

theorem byteAt_zero_of_le32 (buf : List Nat) (hb : ∀ b ∈ buf, b < 256)
    (h4 : 4 ≤ buf.length) : byteAt buf 0 = le32at buf 0 % 256 := by
  have h0 := byteAt_lt buf hb 0 (by omega)
  rw [le32at]
  omega

theorem adjustRange_bounds (v limit dflt : Nat) (h1 : 0 < dflt) (h2 : dflt ≤ limit) :
    0 < adjustRange v limit dflt ∧ adjustRange v limit dflt ≤ limit := by
  rw [adjustRange]
  split_ifs <;> omega

theorem le32at_append (pre l : List Nat) (i : Nat) :
    le32at (pre ++ l) (pre.length + i) = le32at l i := by
  rw [le32at, le32at,
    show pre.length + i + 1 = pre.length + (i + 1) by omega,
    show pre.length + i + 2 = pre.length + (i + 2) by omega,
    show pre.length + i + 3 = pre.length + (i + 3) by omega,
    byteAt_append, byteAt_append, byteAt_append, byteAt_append]

theorem le32at_enc32 (v : Nat) (l : List Nat) :
    le32at (enc32 v ++ l) 0 = v % 4294967296 := by
  simp [le32at, byteAt, enc32, List.getD_cons_zero, List.getD_cons_succ]
  omega

theorem extract_mid (pre p rest : List Nat) :
    extract (pre ++ p ++ rest) pre.length p.length = p := by
  rw [extract, List.append_assoc, List.drop_left, List.take_left]

theorem encodeFrame_length (p : List Nat) (ts : Nat) :
    (encodeFrame (p, ts)).length = 8 + p.length := by
  simp [encodeFrame, enc32]
  omega

/-! ## Lemmas about the length-prefixed frame locator -/

/-- One well-formed frame at the cursor is located exactly, and the
cursor advances past it. -/
theorem readNextFrameHttp_frame (pre p rest : List Nat) (ts : Nat)
    (h0 : 0 < p.length) (h1 : p.length ≤ 1048576) :
    readNextFrameHttp ⟨pre ++ (encodeFrame (p, ts) ++ rest), pre.length,
        (pre ++ (encodeFrame (p, ts) ++ rest)).length, false⟩ =
      (.located p, ⟨pre ++ (encodeFrame (p, ts) ++ rest), pre.length + 8 + p.length,
        (pre ++ (encodeFrame (p, ts) ++ rest)).length, false⟩) := by
  have hlen : (pre ++ (encodeFrame (p, ts) ++ rest)).length =
      pre.length + (8 + p.length + rest.length) := by
    simp [encodeFrame, enc32]
    omega
  have hsize : le32at (pre ++ (encodeFrame (p, ts) ++ rest)) pre.length = p.length := by
    have h := le32at_append pre (encodeFrame (p, ts) ++ rest) 0
    rw [Nat.add_zero] at h
    rw [h]
    simp only [encodeFrame, List.append_assoc]
    rw [le32at_enc32]
    omega
  have hextract : extract (pre ++ (encodeFrame (p, ts) ++ rest)) (pre.length + 8) p.length
      = p := by
    have h : pre ++ (encodeFrame (p, ts) ++ rest) =
        (pre ++ (enc32 p.length ++ enc32 ts)) ++ p ++ rest := by
      simp [encodeFrame]
    have h8 : (pre ++ (enc32 p.length ++ enc32 ts)).length = pre.length + 8 := by
      simp [enc32]
    rw [h, ← h8, extract_mid]
  rw [readNextFrameHttp, if_neg (by rw [hlen]; simp; omega), readFrameAt]
  simp only [hsize, hextract]
  rw [if_neg (by omega), if_neg (by rw [hlen]; omega)]

/-- Locating `k` encoded frames in sequence returns their payloads in
order and leaves the cursor at the end of the buffer. -/
theorem runLocates_encodeFrames (frames : List (List Nat × Nat)) (pre : List Nat)
    (hwf : ∀ f ∈ frames, 0 < f.1.length ∧ f.1.length ≤ 1048576) :
    runLocates ⟨pre ++ encodeFrames frames, pre.length, (pre ++ encodeFrames frames).length,
        false⟩ frames.length =
      (frames.map fun f => FrameOutcome.located f.1,
       ⟨pre ++ encodeFrames frames, (pre ++ encodeFrames frames).length,
        (pre ++ encodeFrames frames).length, false⟩) := by
  induction frames generalizing pre with
  | nil => simp [runLocates, encodeFrames]
  | cons f fs ih =>
    obtain ⟨p, ts⟩ := f
    have hf := hwf (p, ts) (List.mem_cons_self _ _)
    have hbuf : pre ++ encodeFrames ((p, ts) :: fs) =
        pre ++ (encodeFrame (p, ts) ++ encodeFrames fs) := by
      simp [encodeFrames]
    have hassoc : pre ++ (encodeFrame (p, ts) ++ encodeFrames fs) =
        (pre ++ encodeFrame (p, ts)) ++ encodeFrames fs :=
      (List.append_assoc pre _ _).symm
    have hpos : pre.length + 8 + p.length = (pre ++ encodeFrame (p, ts)).length := by
      rw [List.length_append, encodeFrame_length]
      omega
    rw [hbuf]
    show runLocates _ (fs.length + 1) = _
    rw [runLocates, readNextFrameHttp_frame pre p (encodeFrames fs) ts hf.1 hf.2]
    simp only [hpos, hassoc]
    rw [ih (pre ++ encodeFrame (p, ts)) (fun g hg => hwf g (List.mem_cons_of_mem _ hg))]
    simp

/-- A well-formed frame at the cursor of an arbitrary HTTP state is
located with the cursor advanced past it. -/
theorem readNextFrameHttp_located (s : HttpState) (hpos : s.pos + 8 < s.used)
    (hsz0 : 0 < le32at s.buf s.pos) (hsz1 : le32at s.buf s.pos ≤ 1048576)
    (hdata : s.pos + 8 + le32at s.buf s.pos ≤ s.used) :
    readNextFrameHttp s =
      (FrameOutcome.located (extract s.buf (s.pos + 8) (le32at s.buf s.pos)),
       { s with pos := s.pos + 8 + le32at s.buf s.pos }) := by
  rw [readNextFrameHttp, if_neg (by omega), readFrameAt, if_neg (by omega),
    if_neg (by omega)]

/-! ## Lemmas about the blit trace -/

theorem countPair_append (l1 l2 : List (Nat × Nat)) (q : Nat × Nat) :
    countPair (l1 ++ l2) q = countPair l1 q + countPair l2 q := by
  induction l1 with
  | nil => simp [countPair]
  | cons a l ih => simp [countPair, ih]; omega

theorem countPair_rowWrites (vw vh dw dh y n a b : Nat) :
    countPair (rowWrites vw vh dw dh y n) (a, b) =
      if a < n ∧ b = y ∧ pixelWritten vw vh dw dh a b = true then 1 else 0 := by
  induction n with
  | zero => simp [rowWrites, countPair]
  | succ n ih =>
    rw [rowWrites, countPair_append, ih]
    by_cases hby : b = y
    · subst hby
      by_cases han : a = n
      · subst han
        by_cases hp : pixelWritten vw vh dw dh a b = true <;>
          simp [hp, countPair, Nat.lt_irrefl, Nat.lt_succ_self]
      · have hne : ((n : Nat), b) ≠ (a, b) := by
          intro h; injection h with h1 h2; exact han h1.symm
        have h2 : countPair (if pixelWritten vw vh dw dh n b = true then [(n, b)] else [])
            (a, b) = 0 := by
          split_ifs <;> simp [countPair, hne]
        have h3 : a < n + 1 ↔ a < n := by omega
        rw [h2]
        simp only [h3]
        omega
    · have hne : ((n : Nat), y) ≠ (a, b) := by
        intro h; injection h with h1 h2; exact hby h2.symm
      have h2 : countPair (if pixelWritten vw vh dw dh n y = true then [(n, y)] else [])
          (a, b) = 0 := by
        split_ifs <;> simp [countPair, hne]
      rw [h2]
      simp [hby]

theorem countPair_blitRows (vw vh dw dh m a b : Nat) :
    countPair (blitRows vw vh dw dh m) (a, b) =
      if a < dw ∧ b < m ∧ pixelWritten vw vh dw dh a b = true then 1 else 0 := by
  induction m with
  | zero => simp [blitRows, countPair]
  | succ m ih =>
    rw [blitRows, countPair_append, ih, countPair_rowWrites]
    by_cases hby : b = m
    · subst hby
      simp [Nat.lt_irrefl, Nat.lt_succ_self]
    · have h3 : b < m + 1 ↔ b < m := by omega
      have h4 : ¬(a < dw ∧ b = m ∧ pixelWritten vw vh dw dh a b = true) := by
        intro h; exact hby h.2.1
      rw [if_neg h4]
      simp only [h3]
      omega

/-- Each display pixel occurs in the blit trace exactly when its loop
iteration writes it, and then exactly once. -/
theorem countPair_blitWrites (vw vh dw dh a b : Nat) :
    countPair (blitWrites vw vh dw dh) (a, b) =
      if a < dw ∧ b < dh ∧ pixelWritten vw vh dw dh a b = true then 1 else 0 :=
  countPair_blitRows vw vh dw dh dh a b

/-! ## Lemmas about the playback loop -/

theorem frameDelivered_false (a : Bool) (cs : CompState) (o : FrameOutcome) :
    frameDelivered a cs o = false := by
  cases o <;> simp [frameDelivered, process_frame, jpg2rgb565]

theorem read_next_frame_sideFields (a : Bool) (s : CompState) :
    (read_next_frame a s).2.currentFrame = s.currentFrame ∧
    (read_next_frame a s).2.failed = s.failed ∧
    (read_next_frame a s).2.source = s.source ∧
    (read_next_frame a s).2.httpInitialized = s.httpInitialized := by
  obtain ⟨src, fl, ht, hi, lha, lu, ui, cf, fd, vw, vh, dw, dh⟩ := s
  cases src <;> simp [read_next_frame]

theorem framePhase_currentFrame (a : Bool) (now : Nat) (s : CompState) :
    (framePhase a now s).currentFrame = s.currentFrame := by
  rw [framePhase]
  split_ifs with h
  · rfl
  · simp only [frameDelivered_false, if_false, Bool.false_eq_true]
    exact (read_next_frame_sideFields a _).1

theorem loopTick_currentFrame (a : Bool) (r : Option HttpState) (now : Nat) (s : CompState) :
    (loopTick a r now s).currentFrame = s.currentFrame := by
  rw [loopTick.eq_def]
  split_ifs with h1 h2
  · cases r with
    | some h => exact framePhase_currentFrame a now _
    | none => rfl
  · rfl
  · exact framePhase_currentFrame a now s

/-- While uninitialized with a failing open, a tick either only records
the attempt time (when the backoff has elapsed) or does nothing. -/
theorem loopTick_openFail (a : Bool) (now : Nat) (s : CompState)
    (h1 : s.source = VSource.http) (h2 : s.httpInitialized = false) :
    loopTick a none now s =
      if 5000 < sub32 now s.lastHttpInitAttempt then { s with lastHttpInitAttempt := now }
      else s := by
  rw [loopTick.eq_def, if_pos ⟨h1, h2⟩]

theorem runFailTicks_inv (a : Bool) (times : List Nat) :
    ∀ s : CompState, s.source = VSource.http → s.httpInitialized = false →
      (runFailTicks a times s).failed = s.failed ∧
      (runFailTicks a times s).httpInitialized = false ∧
      (runFailTicks a times s).currentFrame = s.currentFrame ∧
      (runFailTicks a times s).lastUpdate = s.lastUpdate ∧
      (runFailTicks a times s).source = VSource.http := by
  induction times with
  | nil => intro s h1 h2; exact ⟨rfl, h2, rfl, rfl, h1⟩
  | cons t ts ih =>
    intro s h1 h2
    have hfold : runFailTicks a (t :: ts) s = runFailTicks a ts (loopTick a none t s) := rfl
    rw [hfold, loopTick_openFail a t s h1 h2]
    split_ifs
    · have := ih { s with lastHttpInitAttempt := t } (by simp [h1]) (by simp [h2])
      simpa using this
    · exact ih s h1 h2

/-! ## Lemmas about the marker-scanning strategy -/

theorem findSOI_drop :
    ∀ (data : List Nat) (i : Nat), findSOI data = some i →
      (data.drop i).take 2 = [0xFF, 0xD8]
  | a :: b :: rest, i, h => by
    rw [findSOI] at h
    split_ifs at h with hc
    · injection h with h0
      subst h0
      simp [hc.1, hc.2]
    · cases hj : findSOI (b :: rest) with
      | none => rw [hj] at h; simp at h
      | some j =>
        rw [hj] at h
        simp at h
        rw [← h]
        simpa using findSOI_drop (b :: rest) j hj
  | [], _, h => by simp [findSOI] at h
  | [a], _, h => by simp [findSOI] at h

theorem goodBuf_append (b data : List Nat) (h : b.take 2 = [0xFF, 0xD8]) :
    (b ++ data).take 2 = [0xFF, 0xD8] := by
  have hlen : 2 ≤ b.length := by
    by_contra hlt
    push_neg at hlt
    have := congrArg List.length h
    simp at this
    omega
  rw [List.take_append_eq_append_take, h]
  simp [Nat.sub_eq_zero_of_le hlen]

theorem process_chunk_good (st : Option (List Nat)) (data : List Nat) (h : goodBuf st) :
    goodBuf (process_mjpeg_chunk st data).2.1 ∧
    ∀ f, (process_mjpeg_chunk st data).1 = some f → f.take 2 = [0xFF, 0xD8] := by
  rw [process_mjpeg_chunk.eq_def]
  cases hs : findSOI data with
  | some i =>
    refine ⟨findSOI_drop data i hs, ?_⟩
    intro f hf
    cases st with
    | none => simp at hf
    | some b =>
      simp only at hf
      split_ifs at hf
      all_goals simp_all [goodBuf]
  | none =>
    cases st with
    | none => exact ⟨trivial, by intro f hf; cases hf⟩
    | some b => exact ⟨goodBuf_append b data h, by intro f hf; cases hf⟩

theorem runChunks_good (chunks : List (List Nat)) :
    ∀ st : Option (List Nat), goodBuf st →
      ∀ f ∈ (runChunks st chunks).1, f.take 2 = [0xFF, 0xD8] := by
  induction chunks with
  | nil => intro st h f hf; simp [runChunks] at hf
  | cons c cs ih =>
    intro st h f hf
    rw [runChunks] at hf
    have hg := process_chunk_good st c h
    simp only [List.mem_append] at hf
    rcases hf with hf | hf
    · cases he : (process_mjpeg_chunk st c).1 with
      | none => rw [he] at hf; simp at hf
      | some g =>
        rw [he] at hf
        simp at hf
        subst hf
        exact hg.2 f he
    · exact ih (process_mjpeg_chunk st c).2.1 hg.1 f hf

/-! ## Claim C1 -/

/-- C1, counterexample.  The claim states that a buffer of at least the
minimum header size whose first two bytes are not the JPEG
start-of-image marker and whose signature matches no recognized
container must fail the parse.  The all-zero 20-byte buffer meets every
precondition, yet `parse_mjpeg_header` succeeds, returning the default
stream header. -/
theorem c1_counterexample :
    (List.replicate 20 0 : List Nat).length = 20 ∧
    ¬(byteAt (List.replicate 20 0) 0 = 0xFF ∧ byteAt (List.replicate 20 0) 1 = 0xD8) ∧
    le32at (List.replicate 20 0) 0 ≠ mjpegSignature ∧
    le32at (List.replicate 20 0) 0 ≠ mjpegSignatureSwapped ∧
    le32at (List.replicate 20 0) 0 ≠ jpegSoiSignature ∧
    parse_mjpeg_header (List.replicate 20 0) = some ⟨320, 240, 100, 30⟩ := by
  exact ⟨by decide, by decide, by decide, by decide, by decide, by decide⟩

/-- C1, amended.  For every buffer of at least 20 bytes whose first two
bytes are not the JPEG start-of-image marker and whose leading 32-bit
signature matches none of the recognized container signatures,
`parse_mjpeg_header` does not fail: it succeeds, repairing each numeric
field (direct value, then byte-swapped value, then documented default)
and returning a header satisfying the dimension/fps invariants. -/
theorem c1_unrecognized_signature_still_parses (buf : List Nat) (h20 : 20 ≤ buf.length)
    (hjpeg : ¬(byteAt buf 0 = 0xFF ∧ byteAt buf 1 = 0xD8))
    (h1 : le32at buf 0 ≠ mjpegSignature) (h2 : le32at buf 0 ≠ mjpegSignatureSwapped)
    (h3 : le32at buf 0 ≠ jpegSoiSignature) :
    ∃ sh : StreamHeader, parse_mjpeg_header buf = some sh ∧
      sh.width = adjustRange (le32at buf 4) 4096 320 ∧
      sh.height = adjustRange (le32at buf 8) 4096 240 ∧
      sh.frameCount = adjustRange (le32at buf 12) 10000 100 ∧
      sh.fps = adjustRange (le32at buf 16) 120 30 ∧
      0 < sh.width ∧ sh.width ≤ 4096 ∧ 0 < sh.height ∧ sh.height ≤ 4096 ∧
      0 < sh.frameCount ∧ 0 < sh.fps := by
  have hl : ¬ buf.length < 20 := by omega
  rw [parse_mjpeg_header, if_neg hl, if_neg hjpeg, if_pos ⟨h1, h2, h3⟩]
  refine ⟨_, rfl, rfl, rfl, rfl, rfl, ?_, ?_, ?_, ?_, ?_, ?_⟩
  · exact (adjustRange_bounds _ _ _ (by omega) (by omega)).1
  · exact (adjustRange_bounds _ _ _ (by omega) (by omega)).2
  · exact (adjustRange_bounds _ _ _ (by omega) (by omega)).1
  · exact (adjustRange_bounds _ _ _ (by omega) (by omega)).2
  · exact (adjustRange_bounds _ _ _ (by omega) (by omega)).1
  · exact (adjustRange_bounds _ _ _ (by omega) (by omega)).1

/-- C1, witness for the amended theorem at the all-ones 20-byte
buffer. -/
theorem c1_witness :
    20 ≤ (List.replicate 20 1 : List Nat).length ∧
    (∃ sh : StreamHeader, parse_mjpeg_header (List.replicate 20 1) = some sh ∧
      sh.width = adjustRange (le32at (List.replicate 20 1) 4) 4096 320 ∧
      sh.height = adjustRange (le32at (List.replicate 20 1) 8) 4096 240 ∧
      sh.frameCount = adjustRange (le32at (List.replicate 20 1) 12) 10000 100 ∧
      sh.fps = adjustRange (le32at (List.replicate 20 1) 16) 120 30 ∧
      0 < sh.width ∧ sh.width ≤ 4096 ∧ 0 < sh.height ∧ sh.height ≤ 4096 ∧
      0 < sh.frameCount ∧ 0 < sh.fps) :=
  ⟨by decide,
   c1_unrecognized_signature_still_parses (List.replicate 20 1) (by decide) (by decide)
     (by decide) (by decide) (by decide)⟩

/-! ## Claim C2 -/

/-- C2, counterexample.  The claim states that a zero declared payload
size is rejected as a corrupt frame on the FILE path as well; in fact
the FILE branch only checks the 1 MiB upper bound, so a zero size
passes the size validation and the call instead fails at the subsequent
zero-byte JPEG-buffer allocation (`heap_caps_malloc(0)` is NULL on the
ESP-IDF target, in both pools): even with a healthy heap the outcome is
the allocation-failure path, not the corrupt-frame rejection. -/
theorem c2_counterexample :
    le32at zeroSizeFileState.data zeroSizeFileState.pos = 0 ∧
    (readNextFrameFile true zeroSizeFileState).1 = FrameOutcome.allocFail ∧
    FrameOutcome.allocFail ≠ FrameOutcome.corruptSize := by
  exact ⟨by decide, by decide, by decide⟩

/-- C2, amended.  On the HTTP path a declared size that is zero or above
1 MiB is rejected as a corrupt frame before any decode, with the cursor
just past the frame header.  On the FILE path only sizes above 1 MiB
are rejected by the size validation; a zero size passes the check and
the call then fails at the zero-byte JPEG-buffer allocation, so the
payload is still never handed to the decoder and the call reports
failure, but through the allocation-failure path rather than the
corrupt-frame rejection.  Neither outcome is ever reported as a
delivered frame. -/
theorem c2_size_validation :
    (∀ s : HttpState, s.pos + 8 < s.used →
      le32at s.buf s.pos = 0 ∨ 1048576 < le32at s.buf s.pos →
      (readNextFrameHttp s).1 = FrameOutcome.corruptSize ∧
      (readNextFrameHttp s).2.pos = s.pos + 8) ∧
    (∀ (a : Bool) (s : FileState), s.pos + 8 ≤ s.data.length →
      1048576 < le32at s.data s.pos →
      (readNextFrameFile a s).1 = FrameOutcome.corruptSize ∧
      (readNextFrameFile a s).2.pos = s.pos + 8) ∧
    (∀ (a : Bool) (s : FileState), s.pos + 8 ≤ s.data.length →
      le32at s.data s.pos = 0 →
      (readNextFrameFile a s).1 = FrameOutcome.allocFail ∧
      (readNextFrameFile a s).2.pos = s.pos + 8 ∧
      ∀ p : List Nat, (readNextFrameFile a s).1 ≠ FrameOutcome.located p) ∧
    (∀ (a : Bool) (cs : CompState), frameDelivered a cs FrameOutcome.corruptSize = false ∧
      frameDelivered a cs FrameOutcome.allocFail = false) := by
  refine ⟨?_, ?_, ?_, ?_⟩
  · intro s hpos hsz
    rw [readNextFrameHttp, if_neg (by omega), readFrameAt]
    rw [if_pos (by omega)]
    exact ⟨rfl, rfl⟩
  · intro a s hpos hsz
    rw [readNextFrameFile, if_neg (by omega)]
    rw [if_pos (by omega)]
    exact ⟨rfl, rfl⟩
  · intro a s hpos hsz
    rw [readNextFrameFile, if_neg (by omega)]
    rw [if_neg (by omega), if_pos (Or.inl hsz)]
    exact ⟨rfl, rfl, fun p h => by cases h⟩
  · intro a cs
    exact ⟨rfl, rfl⟩

/-- C2, witness: an oversized declared size is rejected as corrupt on
both source paths, and a zero declared size on the FILE path fails at
allocation without reaching the decoder. -/
theorem c2_witness :
    ((readNextFrameHttp oversizedHttpState).1 = FrameOutcome.corruptSize ∧
     (readNextFrameHttp oversizedHttpState).2.pos = oversizedHttpState.pos + 8) ∧
    ((readNextFrameFile true oversizedFileState).1 = FrameOutcome.corruptSize ∧
     (readNextFrameFile true oversizedFileState).2.pos = oversizedFileState.pos + 8) ∧
    ((readNextFrameFile true zeroSizeFileState).1 = FrameOutcome.allocFail ∧
     (readNextFrameFile true zeroSizeFileState).2.pos = zeroSizeFileState.pos + 8 ∧
     ∀ p : List Nat, (readNextFrameFile true zeroSizeFileState).1 ≠ FrameOutcome.located p) :=
  ⟨c2_size_validation.1 oversizedHttpState (by decide) (by decide),
   c2_size_validation.2.1 true oversizedFileState (by decide) (by decide),
   c2_size_validation.2.2.1 true zeroSizeFileState (by decide) (by decide)⟩

/-! ## Claim C3 -/

/-- C3, counterexample.  The claim asserts that every display pixel is
written exactly once regardless of the source/display ratio.  With a
64x64 display and a 1024x1024 video, 2x downscale is selected but the
scaled 512x512 frame exceeds the capped RGB buffer, so the index guard
skips rows from y = 16 on: display pixel (0, 16) is never written. -/
theorem c3_counterexample :
    selectScale 1024 1024 64 64 = JpgScale.scale2x ∧ (0 : Nat) < 64 ∧ (16 : Nat) < 64 ∧
    countPair (blitWrites 1024 1024 64 64) (0, 16) = 0 := by
  refine ⟨rfl, by decide, by decide, ?_⟩
  rw [countPair_blitWrites, if_neg]
  decide

/-- C3, amended.  With display 64x64 and video 256x256 the pipeline
selects 2x downscale and the destination-driven blit writes each of the
4096 display pixels exactly once per decoded frame.  (The unrestricted
"regardless of the ratio" generalization fails when the scaled frame
exceeds the capped RGB buffer; see the counterexample.) -/
theorem c3_blit_covers_display :
    selectScale 256 256 64 64 = JpgScale.scale2x ∧
    ∀ x y : Nat, x < 64 → y < 64 → countPair (blitWrites 256 256 64 64) (x, y) = 1 := by
  refine ⟨rfl, ?_⟩
  intro x y hx hy
  rw [countPair_blitWrites]
  have hall : ∀ x : Nat, x < 64 → ∀ y : Nat, y < 64 →
      pixelWritten 256 256 64 64 x y = true := by decide
  rw [if_pos ⟨hx, hy, hall x hx y hy⟩]

/-- C3, witness at display pixel (5, 7). -/
theorem c3_witness :
    (5 : Nat) < 64 ∧ (7 : Nat) < 64 ∧ countPair (blitWrites 256 256 64 64) (5, 7) = 1 :=
  ⟨by decide, by decide, c3_blit_covers_display.2 5 7 (by decide) (by decide)⟩

/-! ## Claim C4 -/

/-- C4, counterexample.  The claim states the (k+1)-th call reports
insufficient/no data.  With the loop flag set (the configured default
per the spec), after the single frame of a k = 1 buffer is consumed, the
second call wraps the cursor back to the payload start and locates the
same frame again instead of reporting no data. -/
theorem c4_counterexample :
    (runLocates oneFrameLoopState 2).1 =
      [FrameOutcome.located [171], FrameOutcome.located [171]] ∧
    FrameOutcome.located ([171] : List Nat) ≠ FrameOutcome.noData ∧
    FrameOutcome.located ([171] : List Nat) ≠ FrameOutcome.insufficientPayload := by
  exact ⟨by decide, by decide, by decide⟩

/-- C4, amended.  For an HTTP buffer holding a 20-byte header followed by
k well-formed length-prefixed frames back-to-back, with the cursor at
the first frame header and looping disabled, k successive
`read_next_frame` calls locate exactly those k payloads in order, and
the (k+1)-th call reports no data.  (With looping enabled the (k+1)-th
call instead wraps and locates the first frame again.) -/
theorem c4_length_prefixed_locator (hdr : List Nat) (frames : List (List Nat × Nat))
    (hh : hdr.length = 20)
    (hwf : ∀ f ∈ frames, 0 < f.1.length ∧ f.1.length ≤ 1048576) :
    (runLocates ⟨hdr ++ encodeFrames frames, 20, (hdr ++ encodeFrames frames).length, false⟩
        frames.length).1 = frames.map (fun f => FrameOutcome.located f.1) ∧
    (readNextFrameHttp (runLocates ⟨hdr ++ encodeFrames frames, 20,
        (hdr ++ encodeFrames frames).length, false⟩ frames.length).2).1 =
      FrameOutcome.noData := by
  rw [show (20 : Nat) = hdr.length from hh.symm,
    runLocates_encodeFrames frames hdr hwf]
  refine ⟨rfl, ?_⟩
  simp [readNextFrameHttp]

/-- C4, witness with k = 2 frames. -/
theorem c4_witness :
    (runLocates ⟨List.replicate 20 0 ++ encodeFrames [([9], 5), ([1, 2], 6)], 20,
        (List.replicate 20 0 ++ encodeFrames [([9], 5), ([1, 2], 6)]).length, false⟩ 2).1 =
      [FrameOutcome.located [9], FrameOutcome.located [1, 2]] ∧
    (readNextFrameHttp (runLocates ⟨List.replicate 20 0 ++ encodeFrames [([9], 5), ([1, 2], 6)],
        20, (List.replicate 20 0 ++ encodeFrames [([9], 5), ([1, 2], 6)]).length, false⟩ 2).2).1 =
      FrameOutcome.noData := by
  have h := c4_length_prefixed_locator (List.replicate 20 0) [([9], 5), ([1, 2], 6)]
    (by decide) (by decide)
  exact ⟨h.1, h.2⟩

/-! ## Claim C5 -/

/-- C5.  The placeholder `jpg2rgb565` returns false for every input;
consequently `process_frame` returns false for every frame (whatever the
allocation outcome, dimensions, or payload), and no tick of the playback
loop ever increments `current_frame_`. -/
theorem c5_decoder_stub_never_delivers :
    (∀ (src : List Nat) (scale : JpgScale), jpg2rgb565 src scale = false) ∧
    (∀ (allocOk : Bool) (vw vh dw dh : Nat) (d : List Nat),
      process_frame allocOk vw vh dw dh d = false) ∧
    (∀ (allocOk : Bool) (openRes : Option HttpState) (now : Nat) (s : CompState),
      (loopTick allocOk openRes now s).currentFrame = s.currentFrame) := by
  refine ⟨fun _ _ => rfl, ?_, fun a r now s => loopTick_currentFrame a r now s⟩
  intro allocOk vw vh dw dh d
  simp [process_frame, jpg2rgb565]

/-! ## Claim C6 -/

/-- C6, counterexample.  The claim states a frame is emitted only when
its end-of-image marker is buffered, and that the emitted range runs
through that marker.  `process_mjpeg_chunk` never inspects the
end-of-image marker: after buffering [FF D8 AA] (no EOI anywhere), the
arrival of a second chunk starting with a new SOI makes it emit the
buffered frame even though the frame contains no end-of-image marker. -/
theorem c6_counterexample :
    (process_mjpeg_chunk (process_mjpeg_chunk none [0xFF, 0xD8, 0xAA]).2.1
        [0xFF, 0xD8, 0xBB]).1 = some [0xFF, 0xD8, 0xAA] ∧
    containsEOI [0xFF, 0xD8, 0xAA] = false := by
  exact ⟨by decide, by decide⟩

/-- C6, amended.  `process_mjpeg_chunk` emits a buffered frame only when
the arriving chunk contains a start-of-image marker (never in response
to an end-of-image marker, which it does not examine), and every frame
it ever emits to the decoder begins with the start-of-image marker. -/
theorem c6_soi_driven_emission :
    (∀ (st : Option (List Nat)) (data : List Nat),
      ((process_mjpeg_chunk st data).1).isSome = true → (findSOI data).isSome = true) ∧
    (∀ (chunks : List (List Nat)) (f : List Nat),
      f ∈ (runChunks none chunks).1 → f.take 2 = [0xFF, 0xD8]) := by
  constructor
  · intro st data h
    rw [process_mjpeg_chunk.eq_def] at h
    cases hs : findSOI data with
    | some i => simp [hs]
    | none =>
      rw [hs] at h
      cases st <;> simp at h
  · intro chunks f hf
    exact runChunks_good chunks none trivial f hf

/-- C6, witness: a chunk that triggers an emission contains an SOI, and
the frame emitted after two chunks begins with the SOI marker. -/
theorem c6_witness :
    (findSOI [0xFF, 0xD8, 0x01]).isSome = true ∧
    ([0xFF, 0xD8, 0x33] : List Nat).take 2 = [0xFF, 0xD8] :=
  ⟨c6_soi_driven_emission.1 (some [0xFF, 0xD8, 0x55]) [0xFF, 0xD8, 0x01] (by decide),
   c6_soi_driven_emission.2 [[0xFF, 0xD8, 0x33], [0xFF, 0xD8, 0x44]] [0xFF, 0xD8, 0x33]
     (by decide)⟩

/-! ## Claim C7 -/

/-- C7, counterexample.  The claim states that on the recognized-signature
path each out-of-range field gets a byte-swap attempt before the default
is substituted.  With the primary signature and width 0x40000000 (out of
range directly, 64 and in range after a byte swap), the parser
substitutes the 320 default without trying the swap. -/
theorem c7_counterexample :
    le32at swappableWidthHeader 0 = mjpegSignature ∧
    le32at swappableWidthHeader 4 = 0x40000000 ∧ 4096 < (0x40000000 : Nat) ∧
    bswap32 0x40000000 = 64 ∧ 0 < (64 : Nat) ∧ (64 : Nat) ≤ 4096 ∧
    parse_mjpeg_header swappableWidthHeader = some ⟨320, 240, 100, 30⟩ ∧
    (320 : Nat) ≠ 64 := by
  exact ⟨by decide, by decide, by decide, by decide, by decide, by decide, by decide,
    by decide⟩

/-- C7, amended.  For every 20-byte header (bytes below 256) whose
signature is the primary "MJPG" constant or its byte-swapped variant,
`parse_mjpeg_header` succeeds and the returned fields satisfy
0 < width ≤ 4096, 0 < height ≤ 4096, 0 < fps ≤ 120 and
0 < frame_count ≤ 10000.  All four fields are byte-swapped together
exactly when the signature is the byte-swapped variant; an individual
out-of-range field is replaced directly by its default (invalid width or
height defaults both dimensions), with no per-field byte-swap
attempt. -/
theorem c7_recognized_header_invariants (buf : List Nat) (h20 : 20 ≤ buf.length)
    (hb : ∀ b ∈ buf, b < 256)
    (hsig : le32at buf 0 = mjpegSignature ∨ le32at buf 0 = mjpegSignatureSwapped) :
    ∃ sh : StreamHeader, parse_mjpeg_header buf = some sh ∧
      0 < sh.width ∧ sh.width ≤ 4096 ∧ 0 < sh.height ∧ sh.height ≤ 4096 ∧
      0 < sh.frameCount ∧ sh.frameCount ≤ 10000 ∧ 0 < sh.fps ∧ sh.fps ≤ 120 := by
  have h1 : ¬ buf.length < 20 := by omega
  have hb0 : byteAt buf 0 = le32at buf 0 % 256 := byteAt_zero_of_le32 buf hb (by omega)
  have h2 : ¬(byteAt buf 0 = 0xFF ∧ byteAt buf 1 = 0xD8) := by
    rcases hsig with h | h <;> rw [h] at hb0 <;>
      simp [mjpegSignature, mjpegSignatureSwapped] at hb0 <;> simp [hb0]
  have h3 : ¬(le32at buf 0 ≠ mjpegSignature ∧ le32at buf 0 ≠ mjpegSignatureSwapped ∧
      le32at buf 0 ≠ jpegSoiSignature) := by
    rcases hsig with h | h <;> simp [h]
  rw [parse_mjpeg_header, if_neg h1, if_neg h2, if_neg h3]
  refine ⟨_, rfl, ?_⟩
  simp only []
  split_ifs <;> simp_all <;> omega

/-- C7, witness at a fully in-range primary-signature header. -/
theorem c7_witness :
    20 ≤ validMjpgHeader.length ∧
    (∃ sh : StreamHeader, parse_mjpeg_header validMjpgHeader = some sh ∧
      0 < sh.width ∧ sh.width ≤ 4096 ∧ 0 < sh.height ∧ sh.height ≤ 4096 ∧
      0 < sh.frameCount ∧ sh.frameCount ≤ 10000 ∧ 0 < sh.fps ∧ sh.fps ≤ 120) :=
  ⟨by decide,
   c7_recognized_header_invariants validMjpgHeader (by decide) (by decide)
     (Or.inl (by decide))⟩

/-! ## Claim C8 -/

/-- C8.  On the HTTP source, while uninitialized and with every open
attempt failing (interface not ready, non-200 status, allocation
failure, timeout — all abstracted as a failing open), a tick whose
backoff has elapsed changes nothing but the recorded attempt time, a
tick within the backoff changes nothing, an attempt is made only when
strictly more than 5000 ms have elapsed since the previous attempt, and
over any sequence of such ticks the component never becomes failed,
never becomes initialized, and never advances playback. -/
theorem c8_http_open_retry_not_fatal (s : CompState) (a : Bool)
    (hsrc : s.source = VSource.http) (hinit : s.httpInitialized = false) :
    (∀ now : Nat, loopTick a none now s =
      if 5000 < sub32 now s.lastHttpInitAttempt then { s with lastHttpInitAttempt := now }
      else s) ∧
    (∀ times : List Nat,
      (runFailTicks a times s).failed = s.failed ∧
      (runFailTicks a times s).httpInitialized = false ∧
      (runFailTicks a times s).currentFrame = s.currentFrame ∧
      (runFailTicks a times s).lastUpdate = s.lastUpdate) :=
  ⟨fun now => loopTick_openFail a now s hsrc hinit,
   fun times =>
    ⟨(runFailTicks_inv a times s hsrc hinit).1, (runFailTicks_inv a times s hsrc hinit).2.1,
     (runFailTicks_inv a times s hsrc hinit).2.2.1,
     (runFailTicks_inv a times s hsrc hinit).2.2.2.1⟩⟩

/-- C8, witness: a failing open at tick 6000 (backoff elapsed) only
records the attempt time, and two failing ticks leave the component
unfailed. -/
theorem c8_witness :
    loopTick true none 6000 idleHttpComp = { idleHttpComp with lastHttpInitAttempt := 6000 } ∧
    (runFailTicks true [1000, 7000] idleHttpComp).failed = false := by
  have h := c8_http_open_retry_not_fatal idleHttpComp true rfl rfl
  constructor
  · rw [h.1 6000]
    decide
  · rw [(h.2 [1000, 7000]).1]
    rfl

/-! ## Claim C9 -/

/-- C9.  On a tick where the frame gate fires and the located frame fails
to deliver (the decoder rejects it), `current_frame_` is unchanged, the
failed flag is unchanged, and the HTTP cursor has advanced past frame N
so the next eligible tick attempts the following frame. -/
theorem c9_frame_failure_nonfatal (s : CompState) (now : Nat) (a : Bool)
    (r : Option HttpState)
    (hsrc : s.source = VSource.http) (hinit : s.httpInitialized = true)
    (hgate : s.updateInterval ≤ sub32 now s.lastUpdate)
    (hpos : s.http.pos + 8 < s.http.used)
    (hsz0 : 0 < le32at s.http.buf s.http.pos)
    (hsz1 : le32at s.http.buf s.http.pos ≤ 1048576)
    (hdata : s.http.pos + 8 + le32at s.http.buf s.http.pos ≤ s.http.used) :
    (loopTick a r now s).currentFrame = s.currentFrame ∧
    (loopTick a r now s).failed = s.failed ∧
    (loopTick a r now s).http.pos = s.http.pos + 8 + le32at s.http.buf s.http.pos ∧
    (readNextFrameHttp s.http).1 =
      FrameOutcome.located (extract s.http.buf (s.http.pos + 8)
        (le32at s.http.buf s.http.pos)) := by
  have hread := readNextFrameHttp_located s.http hpos hsz0 hsz1 hdata
  obtain ⟨src, fl, ht, hi, lha, lu, ui, cf, fd, vw, vh, dw, dh⟩ := s
  simp only at hsrc hinit hgate hpos hsz0 hsz1 hdata hread
  subst hsrc
  subst hinit
  rw [loopTick.eq_def, if_neg (by simp), framePhase, if_neg (by simp; omega)]
  simp only [read_next_frame, hread, frameDelivered_false, if_false, Bool.false_eq_true]
  simp [hread]

/-- C9, witness: a failing decode of the one-frame buffer leaves the
frame counter and failed flag alone and advances the cursor to 29. -/
theorem c9_witness :
    (loopTick true none 100 playingHttpComp).currentFrame = 0 ∧
    (loopTick true none 100 playingHttpComp).failed = false ∧
    (loopTick true none 100 playingHttpComp).http.pos = 29 ∧
    (readNextFrameHttp playingHttpComp.http).1 = FrameOutcome.located [7] := by
  have h := c9_frame_failure_nonfatal playingHttpComp 100 true none rfl rfl
    (by decide) (by decide) (by decide) (by decide) (by decide)
  refine ⟨h.1, h.2.1, ?_, ?_⟩
  · rw [h.2.2.1]
    decide
  · rw [h.2.2.2]
    decide

/-! ## Claim C10 -/

/-- C10, counterexample.  The claim states that whenever the HTTP branch
reads a frame header and then fails, the cursor ends at its pre-call
value plus 8.  When the end-of-buffer reset runs first (cursor at 28 of
30 used bytes, looping enabled), the cursor is reset to 20 before the
header read, so the failing call ends with the cursor at 28, not at
28 + 8 = 36. -/
theorem c10_counterexample :
    (readNextFrameHttp wrapCorruptHttpState).1 = FrameOutcome.corruptSize ∧
    (readNextFrameHttp wrapCorruptHttpState).2.pos = 28 ∧
    wrapCorruptHttpState.pos + 8 = 36 ∧ (28 : Nat) ≠ 36 := by
  exact ⟨by decide, by decide, by decide, by decide⟩

/-- C10, amended.  Whenever the HTTP branch enters with at least 8 bytes
past the cursor (so no loop-restart reset occurs) and the located frame
is rejected — size zero, size above 1 MiB, or payload running past the
buffered bytes — the cursor ends exactly 8 bytes past its pre-call
value: the failed locate is not rolled back. -/
theorem c10_cursor_past_header_on_failure (s : HttpState) (hpos : s.pos + 8 < s.used)
    (hfail : le32at s.buf s.pos = 0 ∨ 1048576 < le32at s.buf s.pos ∨
      s.used < s.pos + 8 + le32at s.buf s.pos) :
    (readNextFrameHttp s).2.pos = s.pos + 8 ∧
    ((readNextFrameHttp s).1 = FrameOutcome.corruptSize ∨
     (readNextFrameHttp s).1 = FrameOutcome.insufficientPayload) := by
  rw [readNextFrameHttp, if_neg (by omega), readFrameAt]
  by_cases hsz : 1048576 < le32at s.buf s.pos ∨ le32at s.buf s.pos = 0
  · rw [if_pos hsz]
    exact ⟨rfl, Or.inl rfl⟩
  · rw [if_neg hsz, if_pos (by omega)]
    exact ⟨rfl, Or.inr rfl⟩

/-- C10, witness: a zero-size frame header at cursor 20 leaves the cursor
at 28. -/
theorem c10_witness :
    (readNextFrameHttp zeroSizeHttpState).2.pos = zeroSizeHttpState.pos + 8 ∧
    ((readNextFrameHttp zeroSizeHttpState).1 = FrameOutcome.corruptSize ∨
     (readNextFrameHttp zeroSizeHttpState).1 = FrameOutcome.insufficientPayload) :=
  c10_cursor_past_header_on_failure zeroSizeHttpState (by decide) (Or.inl (by decide))

end VideoPlayer
